import Mathlib

/-!
Shallow embedding of the 2D SPH fluid simulator found in `cmd/sph/main.go`.

Go's `float32`/`float64` arithmetic is modelled over the reals `ℝ`:
`math.Pi` becomes `Real.pi`, `math.Pow x n` becomes `x ^ n`, and raylib's
vector helpers (`Vector2Add`, `Vector2Subtract`, `Vector2Scale`,
`Vector2Length`, `Vector2Normalize`) become the corresponding real-vector
operations.  Go's `int(x)` conversion on a float truncates toward zero,
modelled by `itrunc`.  Go map reads of absent keys yield the empty slice,
so the grid's cell table is a total function defaulting to `[]`.
-/

namespace SPH

/-- 2D vector, the embedding of `rl.Vector2`. -/
structure Vec2 where
  x : ℝ
  y : ℝ

/-- `rl.Vector2Add`. -/
def Vector2Add (a b : Vec2) : Vec2 := ⟨a.x + b.x, a.y + b.y⟩

/-- `rl.Vector2Subtract`. -/
def Vector2Subtract (a b : Vec2) : Vec2 := ⟨a.x - b.x, a.y - b.y⟩

/-- `rl.Vector2Scale`. -/
def Vector2Scale (v : Vec2) (c : ℝ) : Vec2 := ⟨v.x * c, v.y * c⟩

/-- `rl.Vector2Length`. -/
noncomputable def Vector2Length (v : Vec2) : ℝ := Real.sqrt (v.x * v.x + v.y * v.y)

/-- `rl.Vector2Normalize` (scale by the reciprocal length; in `ℝ` the
reciprocal of `0` is `0`, so the zero vector normalizes to itself, matching
raylib's guarded behaviour). -/
noncomputable def Vector2Normalize (v : Vec2) : Vec2 :=
  Vector2Scale v (1 / Vector2Length v)

instance : Zero Vec2 := ⟨⟨0, 0⟩⟩

instance : Add Vec2 := ⟨Vector2Add⟩

theorem Vec2.zero_def : (0 : Vec2) = ⟨0, 0⟩ := rfl

theorem Vec2.add_def (a b : Vec2) : a + b = ⟨a.x + b.x, a.y + b.y⟩ := rfl

instance : AddCommMonoid Vec2 where
  add_assoc a b c := by simp [Vec2.add_def, add_assoc]
  zero_add a := by simp [Vec2.add_def, Vec2.zero_def]
  add_zero a := by simp [Vec2.add_def, Vec2.zero_def]
  add_comm a b := by simp [Vec2.add_def]; constructor <;> ring
  nsmul := nsmulRec

-- -------------------------------
-- Configurable parameters (the `const` block of `main.go`)
-- -------------------------------

def particleCount : ℕ := 1000

def restDensity : ℝ := 1000

def gasConstant : ℝ := 50

def viscosity : ℝ := 250

/-- smoothing radius -/
def h : ℝ := 16

def mass : ℝ := 200

/-- seconds per update -/
def timeStep : ℝ := 0.0015

def gravity : ℝ := 3000

def windowWidth : ℝ := 800

def windowHeight : ℝ := 400

-- -------------------------------
-- Data structures
-- -------------------------------

/-- The embedding of `Particle`. -/
structure Particle where
  pos : Vec2
  vel : Vec2
  density : ℝ
  pressure : ℝ

instance : Inhabited Particle := ⟨⟨⟨0, 0⟩, ⟨0, 0⟩, 0, 0⟩⟩

/-- The embedding of `Grid`: the cell map is total, absent keys read `[]`. -/
structure Grid where
  cellSize : ℝ
  cells : ℤ × ℤ → List ℕ

/-- The embedding of `SPHSim`. -/
structure SPHSim where
  particles : List Particle
  grid : Grid

-- -------------------------------
-- Kernel functions
-- -------------------------------

/-- `poly6(r, h)`. -/
noncomputable def poly6 (r hr : ℝ) : ℝ :=
  if 0 ≤ r ∧ r ≤ hr then
    (315 / (64 * Real.pi * hr ^ 9)) * (hr * hr - r * r) ^ 3
  else 0

/-- `spikyGrad(rij, r, h)`. -/
noncomputable def spikyGrad (rij : Vec2) (r hr : ℝ) : Vec2 :=
  if 0 < r ∧ r ≤ hr then
    let m := -45 / (Real.pi * hr ^ 6) * (hr - r) ^ 2
    Vector2Scale rij (m / r)
  else ⟨0, 0⟩

/-- `viscLaplacian(r, h)`. -/
noncomputable def viscLaplacian (r hr : ℝ) : ℝ :=
  if 0 ≤ r ∧ r ≤ hr then 45 / (Real.pi * hr ^ 6) * (hr - r) else 0

-- -------------------------------
-- Grid calculations
-- -------------------------------

/-- Go's `int(x)` float-to-int conversion: truncation toward zero. -/
noncomputable def itrunc (t : ℝ) : ℤ := if 0 ≤ t then ⌊t⌋ else ⌈t⌉

/-- The cell key `[2]int{int(pos.X / cellSize), int(pos.Y / cellSize)}`. -/
noncomputable def cellKey (cs : ℝ) (p : Vec2) : ℤ × ℤ :=
  (itrunc (p.x / cs), itrunc (p.y / cs))

/-- `Grid.Clear`: every bucket emptied (reads of any key give `[]`). -/
def emptyCells : ℤ × ℤ → List ℕ := fun _ => []

/-- The loop body of `Grid.Insert`: `g.cells[key] = append(g.cells[key], i)`
for particle `i = ip.1` at `ip.2`. -/
noncomputable def insertAll (cs : ℝ) (ps : List Particle) : ℤ × ℤ → List ℕ :=
  ps.enum.foldl
    (fun cells ip =>
      let key := cellKey cs ip.2.pos
      fun k => if k = key then cells k ++ [ip.1] else cells k)
    emptyCells

/-- `Grid.Insert`: clear, then append every particle index to its cell. -/
noncomputable def Grid.Insert (g : Grid) (ps : List Particle) : Grid :=
  { g with cells := insertAll g.cellSize ps }

/-- `Grid.Nearby`: concatenation of the 3×3 block of buckets around the
particle's own cell, `dy` outer, `dx` inner. -/
noncomputable def Grid.Nearby (g : Grid) (p : Particle) : List ℕ :=
  let key := cellKey g.cellSize p.pos
  ([-1, 0, 1] : List ℤ).flatMap fun dy =>
    ([-1, 0, 1] : List ℤ).flatMap fun dx =>
      g.cells (key.1 + dx, key.2 + dy)

-- -------------------------------
-- SPH core
-- -------------------------------

/-- Total list indexing, the embedding of `s.particles[j]` (indices produced
by the grid are always in range). -/
def getP (ps : List Particle) (i : ℕ) : Particle := ps.getD i default

/-- The inner accumulation loop of `computeDensities` for one particle `p`:
`pi.density = 0`, then for each `j` in `nearby`, add `mass * poly6(r, h)`
when `r < h`. -/
noncomputable def densityAt (g : Grid) (ps : List Particle) (p : Particle) : ℝ :=
  (g.Nearby p).foldl
    (fun d j =>
      let pj := getP ps j
      let rv := Vector2Subtract p.pos pj.pos
      let r := Vector2Length rv
      if r < h then d + mass * poly6 r h else d)
    0

/-- `SPHSim.computeDensities`: the index loop writes only the `density` and
`pressure` fields of particle `i` and reads only positions (which the loop
never changes), so it is a pointwise map. -/
noncomputable def computeDensities (s : SPHSim) : SPHSim :=
  { s with
    particles := s.particles.map fun p =>
      let d := densityAt s.grid s.particles p
      { p with density := d, pressure := gasConstant * (d - restDensity) } }

/-- The acceleration accumulated for particle `i` in `computeForces`:
start from `(0, gravity)`, and for each neighbour `j` skip `j = i` and
`r ≤ 0 ∨ r > h`, otherwise add the pressure and viscosity contributions. -/
noncomputable def accelAt (g : Grid) (ps : List Particle) (i : ℕ) : Vec2 :=
  let pi := getP ps i
  (g.Nearby pi).foldl
    (fun acc j =>
      if i = j then acc
      else
        let pj := getP ps j
        let rij := Vector2Subtract pi.pos pj.pos
        let r := Vector2Length rij
        if r ≤ 0 ∨ h < r then acc
        else
          let pressureTerm := -mass * (pi.pressure + pj.pressure) / (2 * pj.density)
          let grad := spikyGrad rij r h
          let acc1 := Vector2Add acc (Vector2Scale grad (pressureTerm / pj.density))
          let dv := Vector2Subtract pj.vel pi.vel
          let visc := viscosity * viscLaplacian r h
          Vector2Add acc1 (Vector2Scale dv (visc / pj.density)))
    ⟨0, gravity⟩

/-- One iteration of the `computeForces` loop:
`pi.vel = pi.vel + acc * timeStep`, in place. -/
noncomputable def forceStep (g : Grid) (ps : List Particle) (i : ℕ) : List Particle :=
  let pi := getP ps i
  ps.set i { pi with vel := Vector2Add pi.vel (Vector2Scale (accelAt g ps i) timeStep) }

/-- The first `k` iterations of the `computeForces` loop. -/
noncomputable def forcesUpto (g : Grid) (ps : List Particle) (k : ℕ) : List Particle :=
  (List.range k).foldl (forceStep g) ps

/-- `SPHSim.computeForces`: the sequential index loop over all particles. -/
noncomputable def computeForces (s : SPHSim) : SPHSim :=
  { s with particles := forcesUpto s.grid s.particles s.particles.length }

/-- `p.pos = p.pos + p.vel * timeStep`. -/
noncomputable def moveP (p : Particle) : Particle :=
  { p with pos := Vector2Add p.pos (Vector2Scale p.vel timeStep) }

/-- The four sequential wall-collision `if`s of `integrate`. -/
noncomputable def collideWalls (p : Particle) : Particle :=
  let p1 := if p.pos.x < 5 then
      { p with pos := ⟨5, p.pos.y⟩, vel := ⟨p.vel.x * (-0.5), p.vel.y⟩ } else p
  let p2 := if p1.pos.x > windowWidth - 5 then
      { p1 with pos := ⟨windowWidth - 5, p1.pos.y⟩, vel := ⟨p1.vel.x * (-0.5), p1.vel.y⟩ } else p1
  let p3 := if p2.pos.y < 5 then
      { p2 with pos := ⟨p2.pos.x, 5⟩, vel := ⟨p2.vel.x, p2.vel.y * (-0.5)⟩ } else p2
  if p3.pos.y > windowHeight - 5 then
      { p3 with pos := ⟨p3.pos.x, windowHeight - 5⟩, vel := ⟨p3.vel.x, p3.vel.y * (-0.5)⟩ } else p3

/-- The velocity clamp of `integrate`: rescale to magnitude 1000 when faster. -/
noncomputable def clampSpeed (p : Particle) : Particle :=
  if Vector2Length p.vel > 1000 then
    { p with vel := Vector2Scale (Vector2Normalize p.vel) 1000 } else p

/-- The unconditional drag of `integrate`: `p.vel = p.vel * 0.995`. -/
noncomputable def applyDrag (p : Particle) : Particle :=
  { p with vel := Vector2Scale p.vel 0.995 }

/-- The body of the `integrate` loop for one particle. -/
noncomputable def integrateParticle (p : Particle) : Particle :=
  applyDrag (clampSpeed (collideWalls (moveP p)))

/-- `SPHSim.integrate`: each iteration touches only particle `i`, a map. -/
noncomputable def integrate (s : SPHSim) : SPHSim :=
  { s with particles := s.particles.map integrateParticle }

/-- `SPHSim.Step`: rebuild the grid, then densities, forces, integration. -/
noncomputable def Step (s : SPHSim) : SPHSim :=
  integrate (computeForces (computeDensities { s with grid := s.grid.Insert s.particles }))

-- -------------------------------
-- A single isolated particle (the end-to-end scenario)
-- -------------------------------

/-- One particle at `(200, 50)` with zero velocity. -/
noncomputable def soloP : Particle :=
  { pos := ⟨200, 50⟩, vel := ⟨0, 0⟩, density := 0, pressure := 0 }

/-- A simulation holding only `soloP` (grid as built by `NewSPHSim`:
cell size `h`, all buckets empty). -/
noncomputable def soloSim : SPHSim :=
  { particles := [soloP], grid := { cellSize := h, cells := emptyCells } }

-- -------------------------------
-- Helper lemmas: vectors
-- -------------------------------

theorem Vector2Length_nonneg (v : Vec2) : 0 ≤ Vector2Length v :=
  Real.sqrt_nonneg _

theorem Vector2Length_zero : Vector2Length ⟨0, 0⟩ = 0 := by
  simp [Vector2Length]

theorem Vector2Subtract_self (v : Vec2) : Vector2Subtract v v = ⟨0, 0⟩ := by
  simp [Vector2Subtract]

theorem Vector2Length_scale (v : Vec2) (c : ℝ) :
    Vector2Length (Vector2Scale v c) = |c| * Vector2Length v := by
  unfold Vector2Length Vector2Scale
  have hx : v.x * c * (v.x * c) + v.y * c * (v.y * c)
      = c ^ 2 * (v.x * v.x + v.y * v.y) := by ring
  rw [hx, Real.sqrt_mul (sq_nonneg c), Real.sqrt_sq_eq_abs]

theorem sq_le_of_length_le {v : Vec2} {c : ℝ} (_hc : 0 ≤ c)
    (hv : Vector2Length v ≤ c) : v.x * v.x + v.y * v.y ≤ c ^ 2 := by
  have hnn : 0 ≤ v.x * v.x + v.y * v.y := by nlinarith [sq_nonneg v.x, sq_nonneg v.y]
  have := Real.sq_sqrt hnn
  calc v.x * v.x + v.y * v.y = Real.sqrt (v.x * v.x + v.y * v.y) ^ 2 := this.symm
    _ ≤ c ^ 2 := by
        have := Vector2Length_nonneg v
        exact pow_le_pow_left₀ (by exact this) hv 2

theorem abs_x_le_of_length_le {v : Vec2} {c : ℝ} (hc : 0 ≤ c)
    (hv : Vector2Length v ≤ c) : |v.x| ≤ c := by
  have h1 := sq_le_of_length_le hc hv
  exact abs_le.mpr ⟨by nlinarith [sq_nonneg v.y], by nlinarith [sq_nonneg v.y]⟩

theorem abs_y_le_of_length_le {v : Vec2} {c : ℝ} (hc : 0 ≤ c)
    (hv : Vector2Length v ≤ c) : |v.y| ≤ c := by
  have h1 := sq_le_of_length_le hc hv
  exact abs_le.mpr ⟨by nlinarith [sq_nonneg v.x], by nlinarith [sq_nonneg v.x]⟩

-- -------------------------------
-- Helper lemmas: kernels
-- -------------------------------

theorem poly6_nonneg (r hr : ℝ) : 0 ≤ poly6 r hr := by
  unfold poly6
  split
  · rename_i hg
    obtain ⟨h0, h1⟩ := hg
    have hhr : 0 ≤ hr := le_trans h0 h1
    have hsq : 0 ≤ hr * hr - r * r := by nlinarith
    have hpi := Real.pi_pos
    positivity
  · exact le_refl 0

theorem poly6_eq_zero_of_not_lt {r hr : ℝ} (hge : ¬ r < hr) : poly6 r hr = 0 := by
  unfold poly6
  split
  · rename_i hg
    obtain ⟨h0, h1⟩ := hg
    have : r = hr := le_antisymm h1 (not_lt.mp hge)
    subst this
    ring
  · rfl

theorem poly6_zero_pos {hr : ℝ} (hh : 0 < hr) : 0 < poly6 0 hr := by
  unfold poly6
  rw [if_pos ⟨le_refl 0, le_of_lt hh⟩]
  have hpi := Real.pi_pos
  have : (hr * hr - 0 * 0) = hr * hr := by ring
  rw [this]
  positivity

-- -------------------------------
-- Helper lemmas: truncating division
-- -------------------------------

theorem itrunc_mono {s t : ℝ} (hst : s ≤ t) : itrunc s ≤ itrunc t := by
  unfold itrunc
  by_cases hs : 0 ≤ s
  · rw [if_pos hs, if_pos (le_trans hs hst)]
    exact Int.floor_le_floor hst
  · rw [if_neg hs]
    by_cases ht : 0 ≤ t
    · rw [if_pos ht]
      calc ⌈s⌉ ≤ 0 := Int.ceil_le.mpr (by simpa using le_of_not_le hs)
        _ ≤ ⌊t⌋ := Int.le_floor.mpr (by simpa using ht)
    · rw [if_neg ht]
      exact Int.ceil_le_ceil hst

theorem itrunc_gap {s t : ℝ} (hst : s ≤ t) (hgap : t - s ≤ 1) :
    itrunc t ≤ itrunc s + 1 := by
  unfold itrunc
  by_cases hs : 0 ≤ s
  · rw [if_pos hs, if_pos (le_trans hs hst)]
    have h1 : (⌊t⌋ : ℝ) ≤ t := Int.floor_le t
    have h2 : (s : ℝ) - 1 < ⌊s⌋ := by
      have := Int.sub_one_lt_floor s
      linarith
    have hcast : (⌊t⌋ : ℝ) < ((⌊s⌋ + 2 : ℤ) : ℝ) := by push_cast; linarith
    have : ⌊t⌋ < ⌊s⌋ + 2 := by exact_mod_cast hcast
    omega
  · rw [if_neg hs]
    by_cases ht : 0 ≤ t
    · rw [if_pos ht]
      have h1 : (⌊t⌋ : ℝ) ≤ t := Int.floor_le t
      have h2 : s ≤ (⌈s⌉ : ℝ) := Int.le_ceil s
      have hcast : (⌊t⌋ : ℝ) < ((⌈s⌉ + 2 : ℤ) : ℝ) := by push_cast; linarith
      have : ⌊t⌋ < ⌈s⌉ + 2 := by exact_mod_cast hcast
      omega
    · rw [if_neg ht]
      have h1 : (⌈t⌉ : ℝ) < t + 1 := Int.ceil_lt_add_one t
      have h2 : s ≤ (⌈s⌉ : ℝ) := Int.le_ceil s
      have hcast : (⌈t⌉ : ℝ) < ((⌈s⌉ + 2 : ℤ) : ℝ) := by push_cast; linarith
      have : ⌈t⌉ < ⌈s⌉ + 2 := by exact_mod_cast hcast
      omega

/-- Truncating division moves by at most one cell across a distance of at
most one cell width. -/
theorem itrunc_dist_le {s t : ℝ} (hd : |s - t| ≤ 1) :
    itrunc s - 1 ≤ itrunc t ∧ itrunc t ≤ itrunc s + 1 := by
  rcases le_total s t with hst | hts
  · have hgap : t - s ≤ 1 := by
      have := abs_le.mp hd
      linarith [this.1]
    exact ⟨by linarith [itrunc_mono hst], itrunc_gap hst hgap⟩
  · have hgap : s - t ≤ 1 := by
      have := abs_le.mp hd
      linarith [this.2]
    have := itrunc_gap hts hgap
    exact ⟨by omega, by linarith [itrunc_mono hts]⟩

-- -------------------------------
-- Helper lemmas: list access
-- -------------------------------

theorem getP_set (ps : List Particle) (i j : ℕ) (a : Particle) :
    getP (ps.set i a) j =
      if i = j ∧ i < ps.length then a else getP ps j := by
  unfold getP
  rw [List.getD_eq_getElem?_getD, List.getD_eq_getElem?_getD, List.getElem?_set]
  by_cases hij : i = j
  · subst hij
    by_cases hi : i < ps.length
    · simp [hi]
    · rw [List.getElem?_eq_none (le_of_not_lt hi)]
      simp [hi]
  · simp [hij]

theorem getP_map (f : Particle → Particle) (ps : List Particle) (i : ℕ)
    (hi : i < ps.length) : getP (ps.map f) i = f (getP ps i) := by
  unfold getP
  rw [List.getD_eq_getElem?_getD, List.getD_eq_getElem?_getD, List.getElem?_map,
    List.getElem?_eq_getElem hi]
  simp

theorem foldl_add_sum {M : Type} [AddCommMonoid M] (f : ℕ → M) (l : List ℕ) (init : M) :
    l.foldl (fun a j => a + f j) init = init + (l.map f).sum := by
  induction l generalizing init with
  | nil => simp
  | cons x xs ih => simp [ih, add_assoc]

-- -------------------------------
-- Helper lemmas: the grid
-- -------------------------------

theorem insertAll_loop (cs : ℝ) (l : List (ℕ × Particle))
    (init : ℤ × ℤ → List ℕ) (k : ℤ × ℤ) :
    (l.foldl
      (fun cells ip =>
        let key := cellKey cs ip.2.pos
        fun k' => if k' = key then cells k' ++ [ip.1] else cells k')
      init) k
    = init k ++ (l.filter (fun ip => decide (cellKey cs ip.2.pos = k))).map Prod.fst := by
  induction l generalizing init with
  | nil => simp
  | cons ip l ih =>
    rw [List.foldl_cons, ih]
    by_cases hk : cellKey cs ip.2.pos = k
    · subst hk
      simp [List.filter_cons]
    · have hk' : ¬ (k = cellKey cs ip.2.pos) := fun hkk => hk hkk.symm
      simp [List.filter_cons, hk, hk']

theorem insertAll_eq (cs : ℝ) (ps : List Particle) (k : ℤ × ℤ) :
    insertAll cs ps k
      = (ps.enum.filter (fun ip => decide (cellKey cs ip.2.pos = k))).map Prod.fst := by
  unfold insertAll
  rw [insertAll_loop]
  simp [emptyCells]

theorem mem_insertAll_iff (cs : ℝ) (ps : List Particle) (k : ℤ × ℤ) (j : ℕ) :
    j ∈ insertAll cs ps k ↔
      j < ps.length ∧ cellKey cs (getP ps j).pos = k := by
  rw [insertAll_eq]
  constructor
  · intro hmem
    obtain ⟨ip, hip, rfl⟩ := List.mem_map.mp hmem
    obtain ⟨henum, hkey⟩ := List.mem_filter.mp hip
    have hget := List.mem_enum_iff_getElem?.mp henum
    have hlt : ip.1 < ps.length := by
      by_contra hge
      rw [List.getElem?_eq_none (le_of_not_lt hge)] at hget
      exact Option.noConfusion hget
    refine ⟨hlt, ?_⟩
    have : getP ps ip.1 = ip.2 := by
      unfold getP
      rw [List.getD_eq_getElem?_getD, hget]
      rfl
    rw [this]
    exact of_decide_eq_true hkey
  · rintro ⟨hlt, hkey⟩
    refine List.mem_map.mpr ⟨(j, getP ps j), ?_, rfl⟩
    refine List.mem_filter.mpr ⟨?_, by simpa using hkey⟩
    refine List.mem_enum_iff_getElem?.mpr ?_
    unfold getP
    rw [List.getD_eq_getElem?_getD, List.getElem?_eq_getElem hlt]
    rfl

theorem mem_Nearby_iff (g : Grid) (p : Particle) (j : ℕ) :
    j ∈ g.Nearby p ↔
      ∃ dy ∈ ([-1, 0, 1] : List ℤ), ∃ dx ∈ ([-1, 0, 1] : List ℤ),
        j ∈ g.cells ((cellKey g.cellSize p.pos).1 + dx, (cellKey g.cellSize p.pos).2 + dy) := by
  unfold Grid.Nearby
  simp only [List.mem_flatMap]

/-- Every index in a rebuilt grid's `Nearby` answer is a valid particle index. -/
theorem mem_Nearby_insert_lt (g : Grid) (ps : List Particle) (p : Particle) (j : ℕ)
    (hmem : j ∈ (g.Insert ps).Nearby p) : j < ps.length := by
  rw [mem_Nearby_iff] at hmem
  obtain ⟨dy, _, dx, _, hcell⟩ := hmem
  have hc : (g.Insert ps).cells = insertAll g.cellSize ps := rfl
  rw [hc] at hcell
  exact ((mem_insertAll_iff _ _ _ _).mp hcell).1

/-- After a rebuild, each particle index is in its own `Nearby` answer. -/
theorem self_mem_Nearby_insert (g : Grid) (ps : List Particle) (i : ℕ)
    (hi : i < ps.length) : i ∈ (g.Insert ps).Nearby (getP ps i) := by
  rw [mem_Nearby_iff]
  refine ⟨0, by simp, 0, by simp, ?_⟩
  have hc : (g.Insert ps).cells = insertAll g.cellSize ps := rfl
  have hcs : (g.Insert ps).cellSize = g.cellSize := rfl
  rw [hc, hcs]
  simp only [add_zero]
  exact (mem_insertAll_iff _ _ _ _).mpr ⟨hi, rfl⟩

-- -------------------------------
-- Helper lemmas: the density pass
-- -------------------------------

theorem densityAt_eq_sum (g : Grid) (ps : List Particle) (p : Particle) :
    densityAt g ps p =
      ((g.Nearby p).map (fun j =>
        mass * poly6 (Vector2Length (Vector2Subtract p.pos (getP ps j).pos)) h)).sum := by
  unfold densityAt
  have hstep : (fun (d : ℝ) (j : ℕ) =>
      let pj := getP ps j
      let rv := Vector2Subtract p.pos pj.pos
      let r := Vector2Length rv
      if r < h then d + mass * poly6 r h else d)
    = fun d j =>
        d + mass * poly6 (Vector2Length (Vector2Subtract p.pos (getP ps j).pos)) h := by
    funext d j
    simp only
    split
    · rfl
    · rename_i hge
      rw [poly6_eq_zero_of_not_lt hge]
      ring
  rw [hstep, foldl_add_sum]
  rw [zero_add]

theorem computeDensities_getP (s : SPHSim) (i : ℕ) (hi : i < s.particles.length) :
    getP (computeDensities s).particles i =
      { getP s.particles i with
        density := densityAt s.grid s.particles (getP s.particles i),
        pressure :=
          gasConstant * (densityAt s.grid s.particles (getP s.particles i) - restDensity) } := by
  unfold computeDensities
  simp only
  rw [getP_map _ _ _ hi]

theorem computeDensities_length (s : SPHSim) :
    (computeDensities s).particles.length = s.particles.length := by
  simp [computeDensities]

theorem computeDensities_grid (s : SPHSim) : (computeDensities s).grid = s.grid := rfl

-- -------------------------------
-- Helper lemmas: the force pass
-- -------------------------------

theorem accelAt_eq (g : Grid) (ps : List Particle) (i : ℕ) :
    accelAt g ps i =
      Vector2Add ⟨0, gravity⟩
        (((g.Nearby (getP ps i)).map (fun j =>
          let pj := getP ps j
          let rij := Vector2Subtract (getP ps i).pos pj.pos
          let r := Vector2Length rij
          if j ≠ i ∧ 0 < r ∧ r ≤ h then
            Vector2Add
              (Vector2Scale (spikyGrad rij r h)
                ((-mass * ((getP ps i).pressure + pj.pressure) / (2 * pj.density)) / pj.density))
              (Vector2Scale (Vector2Subtract pj.vel (getP ps i).vel)
                ((viscosity * viscLaplacian r h) / pj.density))
          else 0)).sum) := by
  unfold accelAt
  simp only
  have hstep : (fun (acc : Vec2) (j : ℕ) =>
      if i = j then acc
      else
        let pj := getP ps j
        let rij := Vector2Subtract (getP ps i).pos pj.pos
        let r := Vector2Length rij
        if r ≤ 0 ∨ h < r then acc
        else
          let pressureTerm := -mass * ((getP ps i).pressure + pj.pressure) / (2 * pj.density)
          let grad := spikyGrad rij r h
          let acc1 := Vector2Add acc (Vector2Scale grad (pressureTerm / pj.density))
          let dv := Vector2Subtract pj.vel (getP ps i).vel
          let visc := viscosity * viscLaplacian r h
          Vector2Add acc1 (Vector2Scale dv (visc / pj.density)))
    = fun acc j => acc +
        (let pj := getP ps j
         let rij := Vector2Subtract (getP ps i).pos pj.pos
         let r := Vector2Length rij
         if j ≠ i ∧ 0 < r ∧ r ≤ h then
           Vector2Add
             (Vector2Scale (spikyGrad rij r h)
               ((-mass * ((getP ps i).pressure + pj.pressure) / (2 * pj.density)) / pj.density))
             (Vector2Scale (Vector2Subtract pj.vel (getP ps i).vel)
               ((viscosity * viscLaplacian r h) / pj.density))
         else 0) := by
    funext acc j
    simp only
    by_cases hij : i = j
    · rw [if_pos hij]
      rw [if_neg (by simp [hij.symm])]
      rw [add_zero]
    · rw [if_neg hij]
      by_cases hr : Vector2Length (Vector2Subtract (getP ps i).pos (getP ps j).pos) ≤ 0
          ∨ h < Vector2Length (Vector2Subtract (getP ps i).pos (getP ps j).pos)
      · rw [if_pos hr]
        rw [if_neg (by
          rintro ⟨_, hpos, hle⟩
          rcases hr with hr | hr
          · exact absurd hpos (not_lt.mpr hr)
          · exact absurd hle (not_le.mpr hr))]
        rw [add_zero]
      · rw [if_neg hr]
        push_neg at hr
        rw [if_pos ⟨fun hji => hij hji.symm, hr.1, hr.2⟩]
        show Vector2Add (Vector2Add acc _) _ = acc + Vector2Add _ _
        show (acc + _) + _ = acc + (_ + _)
        rw [add_assoc]
  rw [hstep, foldl_add_sum]
  rfl

theorem forceStep_length (g : Grid) (ps : List Particle) (i : ℕ) :
    (forceStep g ps i).length = ps.length := by
  simp [forceStep]

theorem getP_forceStep_ne (g : Grid) (ps : List Particle) {i j : ℕ} (hne : i ≠ j) :
    getP (forceStep g ps i) j = getP ps j := by
  unfold forceStep
  simp only
  rw [getP_set]
  simp [hne]

theorem getP_forceStep_self (g : Grid) (ps : List Particle) (i : ℕ) (hi : i < ps.length) :
    getP (forceStep g ps i) i =
      { getP ps i with
        vel := Vector2Add (getP ps i).vel (Vector2Scale (accelAt g ps i) timeStep) } := by
  unfold forceStep
  simp only
  rw [getP_set]
  simp [hi]

theorem getP_forceStep_fields (g : Grid) (ps : List Particle) (i j : ℕ) :
    (getP (forceStep g ps i) j).pos = (getP ps j).pos ∧
    (getP (forceStep g ps i) j).density = (getP ps j).density ∧
    (getP (forceStep g ps i) j).pressure = (getP ps j).pressure := by
  unfold forceStep
  simp only
  rw [getP_set]
  split
  · rename_i hcond
    rw [hcond.1]
    exact ⟨rfl, rfl, rfl⟩
  · exact ⟨rfl, rfl, rfl⟩

theorem forcesUpto_zero (g : Grid) (ps : List Particle) : forcesUpto g ps 0 = ps := rfl

theorem forcesUpto_succ (g : Grid) (ps : List Particle) (k : ℕ) :
    forcesUpto g ps (k + 1) = forceStep g (forcesUpto g ps k) k := by
  unfold forcesUpto
  rw [List.range_succ, List.foldl_append]
  rfl

theorem forcesUpto_length (g : Grid) (ps : List Particle) (k : ℕ) :
    (forcesUpto g ps k).length = ps.length := by
  induction k with
  | zero => rfl
  | succ k ih => rw [forcesUpto_succ, forceStep_length, ih]

theorem getP_forcesUpto_ge (g : Grid) (ps : List Particle) (k j : ℕ) (hkj : k ≤ j) :
    getP (forcesUpto g ps k) j = getP ps j := by
  induction k with
  | zero => rfl
  | succ k ih =>
    rw [forcesUpto_succ, getP_forceStep_ne _ _ (by omega : k ≠ j), ih (by omega)]

theorem getP_forcesUpto_stable (g : Grid) (ps : List Particle) {k m j : ℕ}
    (hjk : j < k) (hkm : k ≤ m) :
    getP (forcesUpto g ps m) j = getP (forcesUpto g ps k) j := by
  induction m, hkm using Nat.le_induction with
  | base => rfl
  | succ m hm ih =>
    rw [forcesUpto_succ, getP_forceStep_ne _ _ (by omega : m ≠ j), ih]

theorem getP_forcesUpto_fields (g : Grid) (ps : List Particle) (k j : ℕ) :
    (getP (forcesUpto g ps k) j).pos = (getP ps j).pos ∧
    (getP (forcesUpto g ps k) j).density = (getP ps j).density ∧
    (getP (forcesUpto g ps k) j).pressure = (getP ps j).pressure := by
  induction k with
  | zero => exact ⟨rfl, rfl, rfl⟩
  | succ k ih =>
    rw [forcesUpto_succ]
    obtain ⟨h1, h2, h3⟩ := getP_forceStep_fields g (forcesUpto g ps k) k j
    exact ⟨h1.trans ih.1, h2.trans ih.2.1, h3.trans ih.2.2⟩

theorem computeForces_particles (s : SPHSim) :
    (computeForces s).particles = forcesUpto s.grid s.particles s.particles.length := rfl

theorem computeForces_length (s : SPHSim) :
    (computeForces s).particles.length = s.particles.length := by
  rw [computeForces_particles, forcesUpto_length]

theorem computeForces_grid (s : SPHSim) : (computeForces s).grid = s.grid := rfl

theorem computeForces_getP (s : SPHSim) (i : ℕ) (hi : i < s.particles.length) :
    getP (computeForces s).particles i =
      { getP s.particles i with
        vel := Vector2Add (getP s.particles i).vel
          (Vector2Scale (accelAt s.grid (forcesUpto s.grid s.particles i) i) timeStep) } := by
  rw [computeForces_particles]
  rw [getP_forcesUpto_stable s.grid s.particles (by omega : i < i + 1) (by omega : i + 1 ≤ s.particles.length)]
  rw [forcesUpto_succ,
    getP_forceStep_self _ _ _ (by rw [forcesUpto_length]; exact hi)]
  rw [getP_forcesUpto_ge _ _ i i le_rfl]

-- -------------------------------
-- Helper lemmas: integration
-- -------------------------------

theorem moveP_vel (p : Particle) : (moveP p).vel = p.vel := rfl

theorem collideWalls_spec (q : Particle) :
    (q.pos.x < 5 →
      (collideWalls q).pos.x = 5 ∧ (collideWalls q).vel.x = q.vel.x * (-0.5)) ∧
    (q.pos.x > windowWidth - 5 →
      (collideWalls q).pos.x = windowWidth - 5 ∧ (collideWalls q).vel.x = q.vel.x * (-0.5)) ∧
    (q.pos.y < 5 →
      (collideWalls q).pos.y = 5 ∧ (collideWalls q).vel.y = q.vel.y * (-0.5)) ∧
    (q.pos.y > windowHeight - 5 →
      (collideWalls q).pos.y = windowHeight - 5 ∧ (collideWalls q).vel.y = q.vel.y * (-0.5)) := by
  have hww : windowWidth - 5 = (795 : ℝ) := by norm_num [windowWidth]
  have hwh : windowHeight - 5 = (395 : ℝ) := by norm_num [windowHeight]
  unfold collideWalls
  rw [hww, hwh]
  refine ⟨?_, ?_, ?_, ?_⟩ <;> intro hcross <;>
    by_cases h1 : q.pos.x < 5 <;>
      by_cases h2 : q.pos.x > (795 : ℝ) <;>
        by_cases h3 : q.pos.y < 5 <;>
          by_cases h4 : q.pos.y > (395 : ℝ) <;>
            norm_num [h1, h2, h3, h4] <;>
            first
              | rfl
              | linarith

theorem Vector2Length_normalize_pos {v : Vec2} (hv : 0 < Vector2Length v) :
    Vector2Length (Vector2Normalize v) = 1 := by
  unfold Vector2Normalize
  rw [Vector2Length_scale, abs_of_pos (by positivity : (0:ℝ) < 1 / Vector2Length v)]
  field_simp

theorem clampSpeed_le (q : Particle) : Vector2Length (clampSpeed q).vel ≤ 1000 := by
  unfold clampSpeed
  split
  · rename_i hfast
    have hpos : 0 < Vector2Length q.vel := lt_trans (by norm_num) hfast
    simp only
    rw [Vector2Length_scale, Vector2Length_normalize_pos hpos]
    norm_num
  · rename_i hslow
    exact le_of_not_lt hslow

theorem integrateParticle_speed_le (p : Particle) :
    Vector2Length (integrateParticle p).vel ≤ 1000 := by
  unfold integrateParticle applyDrag
  simp only
  rw [Vector2Length_scale]
  have := clampSpeed_le (collideWalls (moveP p))
  have habs : |(0.995 : ℝ)| = 0.995 := by norm_num
  rw [habs]
  nlinarith [Vector2Length_nonneg (clampSpeed (collideWalls (moveP p))).vel]

theorem integrate_length (s : SPHSim) :
    (integrate s).particles.length = s.particles.length := by
  simp [integrate]

theorem integrate_getP (s : SPHSim) (i : ℕ) (hi : i < s.particles.length) :
    getP (integrate s).particles i = integrateParticle (getP s.particles i) := by
  unfold integrate
  simp only
  rw [getP_map _ _ _ hi]

theorem Step_length (s : SPHSim) :
    (Step s).particles.length = s.particles.length := by
  unfold Step
  rw [integrate_length, computeForces_length, computeDensities_length]

-- -------------------------------
-- Helper lemmas: the isolated-particle scenario
-- -------------------------------

theorem itrunc_eval {t : ℝ} {z : ℤ} (h0 : 0 ≤ t) (hz : (z : ℝ) ≤ t)
    (hz1 : t < z + 1) : itrunc t = z := by
  unfold itrunc
  rw [if_pos h0]
  exact Int.floor_eq_iff.mpr ⟨hz, hz1⟩

theorem solo_key : cellKey h (⟨200, 50⟩ : Vec2) = ((12 : ℤ), (3 : ℤ)) := by
  unfold cellKey
  have hx : itrunc ((⟨200, 50⟩ : Vec2).x / h) = 12 := by
    apply itrunc_eval <;> norm_num [h]
  have hy : itrunc ((⟨200, 50⟩ : Vec2).y / h) = 3 := by
    apply itrunc_eval <;> norm_num [h]
  rw [hx, hy]

theorem solo_bucket (k : ℤ × ℤ) :
    insertAll h [soloP] k = if k = ((12 : ℤ), (3 : ℤ)) then [0] else [] := by
  rw [insertAll_eq]
  have he : ([soloP] : List Particle).enum = [(0, soloP)] := rfl
  rw [he]
  have hk : cellKey h soloP.pos = ((12 : ℤ), (3 : ℤ)) := solo_key
  by_cases hcase : k = ((12 : ℤ), (3 : ℤ))
  · subst hcase
    simp [List.filter_cons, hk]
  · have : ¬ (((12 : ℤ), (3 : ℤ)) = k) := fun hkk => hcase hkk.symm
    simp [List.filter_cons, hk, hcase, this]

theorem solo_nearby (p : Particle) (hp : p.pos = ⟨200, 50⟩) :
    (soloSim.grid.Insert [soloP]).Nearby p = [0] := by
  unfold Grid.Nearby
  have hcs : (soloSim.grid.Insert [soloP]).cellSize = h := rfl
  have hc : (soloSim.grid.Insert [soloP]).cells = insertAll h [soloP] := rfl
  rw [hcs, hc, hp, solo_key]
  norm_num [List.flatMap, solo_bucket, Prod.mk.injEq]

theorem collideWalls_id (q : Particle) (hx1 : ¬ q.pos.x < 5)
    (hx2 : ¬ q.pos.x > windowWidth - 5) (hy1 : ¬ q.pos.y < 5)
    (hy2 : ¬ q.pos.y > windowHeight - 5) : collideWalls q = q := by
  unfold collideWalls
  simp [hx1, hx2, hy1, hy2]

theorem solo_forces_vel :
    getP (computeForces (computeDensities
        { soloSim with grid := soloSim.grid.Insert soloSim.particles })).particles 0
      = { getP (computeDensities
            { soloSim with grid := soloSim.grid.Insert soloSim.particles }).particles 0
          with vel := ⟨0, 4.5⟩ } := by
  set s0 : SPHSim := { soloSim with grid := soloSim.grid.Insert soloSim.particles } with hs0
  set s1 := computeDensities s0 with hs1
  have hlen0 : s0.particles.length = 1 := rfl
  have hlen1 : s1.particles.length = 1 := by rw [hs1, computeDensities_length, hlen0]
  have hds := computeDensities_getP s0 0 (by omega)
  have hpos1 : (getP s1.particles 0).pos = ⟨200, 50⟩ := by
    rw [hs1, hds]
    rfl
  have hvel1 : (getP s1.particles 0).vel = ⟨0, 0⟩ := by
    rw [hs1, hds]
    rfl
  have hforce := computeForces_getP s1 0 (by omega)
  rw [forcesUpto_zero] at hforce
  have hg1 : s1.grid = soloSim.grid.Insert [soloP] := rfl
  have hnear : s1.grid.Nearby (getP s1.particles 0) = [0] := by
    rw [hg1]
    exact solo_nearby _ hpos1
  have hacc : accelAt s1.grid s1.particles 0 = ⟨0, gravity⟩ := by
    unfold accelAt
    simp only
    rw [hnear]
    simp [List.foldl_cons, List.foldl_nil]
  rw [hforce, hacc, hvel1]
  have hv : Vector2Add (⟨0, 0⟩ : Vec2) (Vector2Scale ⟨0, gravity⟩ timeStep) = ⟨0, 4.5⟩ := by
    norm_num [Vector2Add, Vector2Scale, gravity, timeStep]
  rw [hv]

theorem solo_length_pres :
    (computeForces (computeDensities
      { soloSim with grid := soloSim.grid.Insert soloSim.particles })).particles.length = 1 := by
  rw [computeForces_length, computeDensities_length]
  rfl

theorem integrateParticle_solo (q : Particle) (hqp : q.pos = ⟨200, 50⟩)
    (hqv : q.vel = ⟨0, 4.5⟩) :
    (integrateParticle q).pos = ⟨200, 50.00675⟩ ∧
    (integrateParticle q).vel = ⟨0, 4.4775⟩ := by
  unfold integrateParticle
  have hmv : moveP q = { q with pos := ⟨200, 50.00675⟩ } := by
    unfold moveP
    rw [hqp, hqv]
    norm_num [Vector2Add, Vector2Scale, timeStep]
  rw [hmv]
  have hcw : collideWalls { q with pos := (⟨200, 50.00675⟩ : Vec2) }
      = { q with pos := ⟨200, 50.00675⟩ } := by
    apply collideWalls_id <;> norm_num [windowWidth, windowHeight]
  rw [hcw]
  have hlen : Vector2Length (⟨0, 4.5⟩ : Vec2) = 4.5 := by
    show Real.sqrt ((0 : ℝ) * 0 + 4.5 * 4.5) = 4.5
    have heq : (0 : ℝ) * 0 + 4.5 * 4.5 = 4.5 ^ 2 := by norm_num
    rw [heq, Real.sqrt_sq (by norm_num : (0 : ℝ) ≤ 4.5)]
  have hcs : clampSpeed { q with pos := (⟨200, 50.00675⟩ : Vec2) }
      = { q with pos := ⟨200, 50.00675⟩ } := by
    unfold clampSpeed
    rw [if_neg]
    show ¬ Vector2Length q.vel > 1000
    rw [hqv, hlen]
    norm_num
  rw [hcs]
  unfold applyDrag
  constructor
  · rfl
  · show Vector2Scale q.vel 0.995 = _
    rw [hqv]
    norm_num [Vector2Scale]

theorem Vector2Length_sub_comm (a b : Vec2) :
    Vector2Length (Vector2Subtract a b) = Vector2Length (Vector2Subtract b a) := by
  unfold Vector2Length Vector2Subtract
  have heq : (a.x - b.x) * (a.x - b.x) + (a.y - b.y) * (a.y - b.y)
      = (b.x - a.x) * (b.x - a.x) + (b.y - a.y) * (b.y - a.y) := by ring
  rw [heq]

theorem Vector2Scale_scale (v : Vec2) (a b : ℝ) :
    Vector2Scale (Vector2Scale v a) b = Vector2Scale v (a * b) := by
  unfold Vector2Scale
  simp only [mul_assoc]

/-- Two particles at true distance at most `h` land in cells at most one
apart per axis, so each is in the other's 3×3 `Nearby` block. -/
theorem nearby_of_close (g : Grid) (ps : List Particle) (i j : ℕ)
    (hg : g.cellSize = h) (hj : j < ps.length)
    (hd : Vector2Length (Vector2Subtract (getP ps i).pos (getP ps j).pos) ≤ h) :
    j ∈ (g.Insert ps).Nearby (getP ps i) := by
  have hh : (0 : ℝ) < h := by norm_num [h]
  have hdx : |(getP ps i).pos.x - (getP ps j).pos.x| ≤ h := by
    have := abs_x_le_of_length_le (le_of_lt hh) hd
    simpa [Vector2Subtract] using this
  have hdy : |(getP ps i).pos.y - (getP ps j).pos.y| ≤ h := by
    have := abs_y_le_of_length_le (le_of_lt hh) hd
    simpa [Vector2Subtract] using this
  have hdivx : |(getP ps i).pos.x / g.cellSize - (getP ps j).pos.x / g.cellSize| ≤ 1 := by
    rw [hg, div_sub_div_same, abs_div, abs_of_pos hh]
    exact (div_le_one hh).mpr hdx
  have hdivy : |(getP ps i).pos.y / g.cellSize - (getP ps j).pos.y / g.cellSize| ≤ 1 := by
    rw [hg, div_sub_div_same, abs_div, abs_of_pos hh]
    exact (div_le_one hh).mpr hdy
  obtain ⟨hkx1, hkx2⟩ := itrunc_dist_le hdivx
  obtain ⟨hky1, hky2⟩ := itrunc_dist_le hdivy
  rw [mem_Nearby_iff]
  simp only [Grid.Insert, cellKey]
  refine ⟨itrunc ((getP ps j).pos.y / g.cellSize) - itrunc ((getP ps i).pos.y / g.cellSize),
    ?_,
    itrunc ((getP ps j).pos.x / g.cellSize) - itrunc ((getP ps i).pos.x / g.cellSize),
    ?_, ?_⟩
  · simp only [List.mem_cons, List.not_mem_nil, or_false]
    omega
  · simp only [List.mem_cons, List.not_mem_nil, or_false]
    omega
  · have hpair : (itrunc ((getP ps i).pos.x / g.cellSize) +
        (itrunc ((getP ps j).pos.x / g.cellSize) - itrunc ((getP ps i).pos.x / g.cellSize)),
        itrunc ((getP ps i).pos.y / g.cellSize) +
        (itrunc ((getP ps j).pos.y / g.cellSize) - itrunc ((getP ps i).pos.y / g.cellSize)))
      = (itrunc ((getP ps j).pos.x / g.cellSize), itrunc ((getP ps j).pos.y / g.cellSize)) := by
      rw [Prod.mk.injEq]
      omega
    rw [hpair]
    exact (mem_insertAll_iff _ _ _ _).mpr ⟨hj, rfl⟩

-- -------------------------------
-- Claims
-- -------------------------------

/-- **C1**: end-to-end single-step scenario: for a simulation holding a single
isolated particle at `(200, 50)` with velocity `(0, 0)`, one `Step` produces
post-force velocity `(0, 4.5)`, position `(200, 50.00675)`, and final
velocity after drag `(0, 4.4775)`. -/
theorem claim1_step_solo :
    (getP (computeForces (computeDensities
        { soloSim with grid := soloSim.grid.Insert soloSim.particles })).particles 0).vel
      = ⟨0, 4.5⟩ ∧
    (getP (Step soloSim).particles 0).pos = ⟨200, 50.00675⟩ ∧
    (getP (Step soloSim).particles 0).vel = ⟨0, 4.4775⟩ := by
  set s2 := computeForces (computeDensities
      { soloSim with grid := soloSim.grid.Insert soloSim.particles }) with hs2
  have hvel : (getP s2.particles 0).vel = ⟨0, 4.5⟩ := by
    rw [hs2, solo_forces_vel]
  have hpos : (getP s2.particles 0).pos = ⟨200, 50⟩ := by
    rw [hs2, solo_forces_vel]
    rfl
  have hint : getP (Step soloSim).particles 0 = integrateParticle (getP s2.particles 0) := by
    show getP (integrate s2).particles 0 = _
    exact integrate_getP s2 0 (by rw [hs2]; rw [solo_length_pres]; omega)
  obtain ⟨hfp, hfv⟩ := integrateParticle_solo _ hpos hvel
  exact ⟨hvel, by rw [hint]; exact hfp, by rw [hint]; exact hfv⟩

/-- **C2**: after the density pass (on a freshly rebuilt grid), each
particle's density is the sum over every `j` in `nearby(i)` — a list that
contains `i` itself — of `mass * poly6(|pos_i - pos_j|, h)` (the `r < h`
guard loses nothing because `poly6` vanishes for `r ≥ h`), and its pressure
is `gasConstant * (density - restDensity)` with no clamping. -/
theorem claim2_density_pressure (s : SPHSim) (i : ℕ) (hi : i < s.particles.length) :
    (getP (computeDensities { s with grid := s.grid.Insert s.particles }).particles i).density
      = (((s.grid.Insert s.particles).Nearby (getP s.particles i)).map (fun j =>
          mass * poly6 (Vector2Length (Vector2Subtract (getP s.particles i).pos
            (getP s.particles j).pos)) h)).sum ∧
    (getP (computeDensities { s with grid := s.grid.Insert s.particles }).particles i).pressure
      = gasConstant *
        ((getP (computeDensities
            { s with grid := s.grid.Insert s.particles }).particles i).density - restDensity) ∧
    i ∈ (s.grid.Insert s.particles).Nearby (getP s.particles i) := by
  set s0 : SPHSim := { s with grid := s.grid.Insert s.particles } with hs0
  have hlen : i < s0.particles.length := hi
  have hds := computeDensities_getP s0 i hlen
  have hp0 : getP s0.particles i = getP s.particles i := rfl
  have hg0 : s0.grid = s.grid.Insert s.particles := rfl
  refine ⟨?_, ?_, self_mem_Nearby_insert s.grid s.particles i hi⟩
  · rw [hds]
    show densityAt s0.grid s0.particles (getP s0.particles i) = _
    rw [densityAt_eq_sum, hp0, hg0]
  · rw [hds]

theorem claim2_witness :
    0 < soloSim.particles.length ∧
    0 ∈ (soloSim.grid.Insert soloSim.particles).Nearby (getP soloSim.particles 0) :=
  ⟨by norm_num [soloSim],
    (claim2_density_pressure soloSim 0 (by norm_num [soloSim])).2.2⟩

/-- **C3**: the force accumulation for particle `i` starts from
`(0, gravity)` and, for each neighbour `j ≠ i` with `0 < r ≤ h`, adds the
pressure contribution `spikyGrad(pos_i - pos_j, r, h)` scaled by
`pressureTerm / density_j` with
`pressureTerm = -mass * (pressure_i + pressure_j) / (2 * density_j)`
(so `density_j` divides twice), and the viscosity contribution
`(vel_j - vel_i) * viscosity * viscLaplacian(r, h) / density_j`. -/
theorem claim3_force_accumulation (g : Grid) (ps : List Particle) (i : ℕ) :
    accelAt g ps i =
      Vector2Add ⟨0, gravity⟩
        (((g.Nearby (getP ps i)).map (fun j =>
          let pj := getP ps j
          let rij := Vector2Subtract (getP ps i).pos pj.pos
          let r := Vector2Length rij
          if j ≠ i ∧ 0 < r ∧ r ≤ h then
            Vector2Add
              (Vector2Scale (spikyGrad rij r h)
                ((-mass * ((getP ps i).pressure + pj.pressure) / (2 * pj.density)) / pj.density))
              (Vector2Scale (Vector2Subtract pj.vel (getP ps i).vel)
                ((viscosity * viscLaplacian r h) / pj.density))
          else 0)).sum) :=
  accelAt_eq g ps i

/-- **C4**: the force pass is sequential (Gauss–Seidel-like): particle `i`'s
velocity is updated in place from the acceleration computed against the
state `forcesUpto i`, which agrees with the final state on indices `j < i`
(already updated) and with the pre-pass state on `j ≥ i` (not yet updated);
positions, densities and pressures are untouched. -/
theorem claim4_gauss_seidel (s : SPHSim) (i : ℕ) (hi : i < s.particles.length) :
    (getP (computeForces s).particles i).vel
      = Vector2Add (getP s.particles i).vel
          (Vector2Scale (accelAt s.grid (forcesUpto s.grid s.particles i) i) timeStep) ∧
    (∀ j, j < i → getP (forcesUpto s.grid s.particles i) j = getP (computeForces s).particles j) ∧
    (∀ j, i ≤ j → getP (forcesUpto s.grid s.particles i) j = getP s.particles j) ∧
    (∀ j, (getP (computeForces s).particles j).pos = (getP s.particles j).pos ∧
          (getP (computeForces s).particles j).density = (getP s.particles j).density ∧
          (getP (computeForces s).particles j).pressure = (getP s.particles j).pressure) := by
  refine ⟨?_, ?_, ?_, ?_⟩
  · rw [computeForces_getP s i hi]
  · intro j hj
    rw [computeForces_particles]
    exact (getP_forcesUpto_stable s.grid s.particles hj (le_of_lt hi)).symm
  · intro j hj
    exact getP_forcesUpto_ge s.grid s.particles i j hj
  · intro j
    rw [computeForces_particles]
    exact getP_forcesUpto_fields s.grid s.particles _ j

theorem claim4_witness :
    0 < soloSim.particles.length ∧
    (getP (computeForces soloSim).particles 0).vel
      = Vector2Add (getP soloSim.particles 0).vel
          (Vector2Scale (accelAt soloSim.grid (forcesUpto soloSim.grid soloSim.particles 0) 0)
            timeStep) :=
  ⟨by norm_num [soloSim], (claim4_gauss_seidel soloSim 0 (by norm_num [soloSim])).1⟩

theorem step_speed_le (s : SPHSim) (i : ℕ) (hi : i < s.particles.length) :
    Vector2Length ((getP (Step s).particles i).vel) ≤ 1000 := by
  unfold Step
  set s2 := computeForces (computeDensities { s with grid := s.grid.Insert s.particles }) with hs2
  have hlen : i < s2.particles.length := by
    rw [hs2, computeForces_length, computeDensities_length]
    exact hi
  rw [integrate_getP s2 i hlen]
  exact integrateParticle_speed_le _

theorem iterate_Step_length (s : SPHSim) (n : ℕ) :
    ((Step)^[n] s).particles.length = s.particles.length := by
  induction n with
  | zero => rfl
  | succ n ih => rw [Function.iterate_succ_apply', Step_length, ih]

/-- **C5**: speed cap invariant: after any positive number of `Step`s from
any state, every particle's velocity magnitude is at most `1000` (the clamp
rescales to `1000` and the drag factor `0.995` does not increase it). -/
theorem claim5_speed_cap (s : SPHSim) (n i : ℕ) (hn : 1 ≤ n)
    (hi : i < s.particles.length) :
    Vector2Length ((getP ((Step)^[n] s).particles i).vel) ≤ 1000 := by
  obtain ⟨m, rfl⟩ : ∃ m, n = m + 1 := ⟨n - 1, by omega⟩
  rw [Function.iterate_succ_apply']
  exact step_speed_le _ i (by rw [iterate_Step_length]; exact hi)

theorem claim5_witness :
    1 ≤ 1 ∧ 0 < soloSim.particles.length ∧
    Vector2Length ((getP ((Step)^[1] soloSim).particles 0).vel) ≤ 1000 :=
  ⟨le_refl 1, by norm_num [soloSim],
    claim5_speed_cap soloSim 1 0 (le_refl 1) (by norm_num [soloSim])⟩

/-- **C6**: wall reflection during integration: a particle whose moved
position crosses a wall is clamped to exactly the wall value
(`5` or `windowWidth - 5` on the x-axis, `5` or `windowHeight - 5` on the
y-axis) and the corresponding velocity component becomes `-0.5` times its
pre-collision value, independently per axis for all four walls. -/
theorem claim6_wall_reflection (p : Particle) :
    ((moveP p).pos.x < 5 →
      (collideWalls (moveP p)).pos.x = 5 ∧
      (collideWalls (moveP p)).vel.x = p.vel.x * (-0.5)) ∧
    ((moveP p).pos.x > windowWidth - 5 →
      (collideWalls (moveP p)).pos.x = windowWidth - 5 ∧
      (collideWalls (moveP p)).vel.x = p.vel.x * (-0.5)) ∧
    ((moveP p).pos.y < 5 →
      (collideWalls (moveP p)).pos.y = 5 ∧
      (collideWalls (moveP p)).vel.y = p.vel.y * (-0.5)) ∧
    ((moveP p).pos.y > windowHeight - 5 →
      (collideWalls (moveP p)).pos.y = windowHeight - 5 ∧
      (collideWalls (moveP p)).vel.y = p.vel.y * (-0.5)) := by
  have hspec := collideWalls_spec (moveP p)
  have hv : (moveP p).vel = p.vel := rfl
  rw [hv] at hspec
  exact hspec

theorem claim6_witness :
    (moveP (⟨⟨0, 0⟩, ⟨0, 0⟩, 0, 0⟩ : Particle)).pos.x < 5 ∧
    ((collideWalls (moveP (⟨⟨0, 0⟩, ⟨0, 0⟩, 0, 0⟩ : Particle))).pos.x = 5 ∧
     (collideWalls (moveP (⟨⟨0, 0⟩, ⟨0, 0⟩, 0, 0⟩ : Particle))).vel.x
       = (⟨⟨0, 0⟩, ⟨0, 0⟩, 0, 0⟩ : Particle).vel.x * (-0.5)) := by
  have hx : (moveP (⟨⟨0, 0⟩, ⟨0, 0⟩, 0, 0⟩ : Particle)).pos.x < 5 := by
    norm_num [moveP, Vector2Add, Vector2Scale]
  exact ⟨hx, (claim6_wall_reflection _).1 hx⟩

/-- **C7**: grid no-false-negatives: if two particles' true Euclidean
distance is at most `h`, then after a rebuild (`Insert`) with cell size `h`,
each appears in the other's `Nearby` answer (in particular at least one of
the two appears in the other's). -/
theorem claim7_grid_no_false_negatives (g : Grid) (ps : List Particle) (i j : ℕ)
    (hg : g.cellSize = h) (hi : i < ps.length) (hj : j < ps.length)
    (hd : Vector2Length (Vector2Subtract (getP ps i).pos (getP ps j).pos) ≤ h) :
    j ∈ (g.Insert ps).Nearby (getP ps i) ∧ i ∈ (g.Insert ps).Nearby (getP ps j) := by
  refine ⟨nearby_of_close g ps i j hg hj hd, nearby_of_close g ps j i hg hi ?_⟩
  rw [Vector2Length_sub_comm]
  exact hd

theorem claim7_witness :
    soloSim.grid.cellSize = h ∧
    Vector2Length (Vector2Subtract (getP [soloP, soloP] 0).pos (getP [soloP, soloP] 1).pos) ≤ h ∧
    1 ∈ (soloSim.grid.Insert [soloP, soloP]).Nearby (getP [soloP, soloP] 0) := by
  have hd : Vector2Length
      (Vector2Subtract (getP [soloP, soloP] 0).pos (getP [soloP, soloP] 1).pos) ≤ h := by
    have h0 : getP [soloP, soloP] 0 = soloP := rfl
    have h1 : getP [soloP, soloP] 1 = soloP := rfl
    rw [h0, h1, Vector2Subtract_self, Vector2Length_zero]
    norm_num [h]
  exact ⟨rfl, hd,
    (claim7_grid_no_false_negatives soloSim.grid [soloP, soloP] 0 1 rfl
      (by norm_num) (by norm_num) hd).1⟩

/-- **C8** (counterexample): the claimed closed form
`poly6(0, h) = 315 * h^6 / (64π)` fails at `h = 2`: the code computes
`315 / (64π * h^9) * (h^2)^3 = 315 / (512π)`, not `315/π`. -/
theorem claim8_counterexample : poly6 0 2 ≠ 315 * 2 ^ 6 / (64 * Real.pi) := by
  unfold poly6
  rw [if_pos (by norm_num : (0 : ℝ) ≤ 0 ∧ (0 : ℝ) ≤ 2)]
  have hpi : (0 : ℝ) < Real.pi := Real.pi_pos
  intro heq
  rw [div_mul_eq_mul_div, div_eq_div_iff (by positivity) (by positivity)] at heq
  nlinarith [heq, Real.pi_pos]

/-- **C8** (amended): for every `h > 0`, `poly6(r, h) = 0` for all `r > h`,
and `poly6(0, h) = 315 / (64π * h^3)` (the spec's `315 * h^6 / (64π)`
forgets the `h^9` in the kernel's denominator). -/
theorem claim8_amended (hr : ℝ) (hh : 0 < hr) :
    (∀ r, hr < r → poly6 r hr = 0) ∧
    poly6 0 hr = 315 / (64 * Real.pi * hr ^ 3) := by
  constructor
  · intro r hrgt
    exact poly6_eq_zero_of_not_lt (not_lt.mpr (le_of_lt hrgt))
  · unfold poly6
    rw [if_pos ⟨le_refl 0, le_of_lt hh⟩]
    have h1 : hr ≠ 0 := ne_of_gt hh
    have h2 : Real.pi ≠ 0 := Real.pi_ne_zero
    field_simp
    ring

theorem claim8_witness :
    (0 : ℝ) < 2 ∧ poly6 0 2 = 315 / (64 * Real.pi * 2 ^ 3) :=
  ⟨by norm_num, (claim8_amended 2 (by norm_num)).2⟩

/-- **C9**: `spikyGrad` is the zero vector for `r = 0` and for `r > h`;
for `0 < r ≤ h` and a displacement of length `r` its magnitude is
`45 / (π h^6) * (h - r)^2` independent of direction, and it points along
`-(d / r)`. -/
theorem claim9_spikyGrad (hr : ℝ) (hh : 0 < hr) :
    (∀ d, spikyGrad d 0 hr = ⟨0, 0⟩) ∧
    (∀ d r, hr < r → spikyGrad d r hr = ⟨0, 0⟩) ∧
    (∀ d r, 0 < r → r ≤ hr → Vector2Length d = r →
      Vector2Length (spikyGrad d r hr) = 45 / (Real.pi * hr ^ 6) * (hr - r) ^ 2 ∧
      spikyGrad d r hr
        = Vector2Scale (Vector2Scale d (1 / r))
            (-(45 / (Real.pi * hr ^ 6) * (hr - r) ^ 2))) := by
  refine ⟨?_, ?_, ?_⟩
  · intro d
    unfold spikyGrad
    rw [if_neg (by simp)]
  · intro d r hrgt
    unfold spikyGrad
    rw [if_neg (by rintro ⟨_, hle⟩; exact absurd hle (not_le.mpr hrgt))]
  · intro d r hr0 hrle hlen
    have hsp : spikyGrad d r hr
        = Vector2Scale d ((-45 / (Real.pi * hr ^ 6) * (hr - r) ^ 2) / r) := by
      unfold spikyGrad
      rw [if_pos ⟨hr0, hrle⟩]
    constructor
    · rw [hsp, Vector2Length_scale, hlen]
      have hm : (-45 / (Real.pi * hr ^ 6) * (hr - r) ^ 2)
          = -(45 / (Real.pi * hr ^ 6) * (hr - r) ^ 2) := by ring
      rw [hm, neg_div, abs_neg, abs_div, abs_of_pos hr0,
        abs_of_nonneg (by positivity : (0 : ℝ) ≤ 45 / (Real.pi * hr ^ 6) * (hr - r) ^ 2)]
      exact div_mul_cancel₀ _ (ne_of_gt hr0)
    · rw [hsp, Vector2Scale_scale]
      congr 1
      ring

theorem claim9_witness :
    (0 : ℝ) < 1 ∧ spikyGrad ⟨1, 1⟩ 0 1 = ⟨0, 0⟩ :=
  ⟨by norm_num, (claim9_spikyGrad 1 (by norm_num)).1 ⟨1, 1⟩⟩

/-- **C10**: `mass * poly6(0, h)` is strictly positive, and after the density
pass of a step every particle's density is at least `mass * poly6(0, h)`
(the grid returns each particle's own index, contributing at `r = 0`);
moreover every index a rebuilt grid's `Nearby` ever returns is a valid
particle index, so every `density_j` divisor in the force pass is strictly
positive and no division by zero occurs in `Step`. -/
theorem claim10_no_div_by_zero (s : SPHSim) :
    0 < mass * poly6 0 h ∧
    (∀ i, i < s.particles.length →
      mass * poly6 0 h ≤
        (getP (computeDensities
          { s with grid := s.grid.Insert s.particles }).particles i).density) ∧
    (∀ p j, j ∈ (s.grid.Insert s.particles).Nearby p → j < s.particles.length) := by
  have hpos : 0 < mass * poly6 0 h :=
    mul_pos (by norm_num [mass]) (poly6_zero_pos (by norm_num [h]))
  refine ⟨hpos, ?_, ?_⟩
  · intro i hi
    set s0 : SPHSim := { s with grid := s.grid.Insert s.particles } with hs0
    have hds := computeDensities_getP s0 i hi
    rw [hds]
    show mass * poly6 0 h ≤ densityAt s0.grid s0.particles (getP s0.particles i)
    rw [densityAt_eq_sum]
    have hself : getP s0.particles i = getP s.particles i := rfl
    have hmem : i ∈ s0.grid.Nearby (getP s0.particles i) := by
      rw [hself]
      exact self_mem_Nearby_insert s.grid s.particles i hi
    have hterm : (fun j => mass * poly6 (Vector2Length (Vector2Subtract
        (getP s0.particles i).pos (getP s0.particles j).pos)) h) i = mass * poly6 0 h := by
      simp only [Vector2Subtract_self, Vector2Length_zero]
    refine List.single_le_sum ?_ _ ?_
    · intro x hx
      obtain ⟨j, _, rfl⟩ := List.mem_map.mp hx
      exact mul_nonneg (by norm_num [mass]) (poly6_nonneg _ _)
    · rw [← hterm]
      exact List.mem_map_of_mem _ hmem
  · intro p j hmem
    exact mem_Nearby_insert_lt s.grid s.particles p j hmem

theorem claim10_witness :
    0 < soloSim.particles.length ∧
    mass * poly6 0 h ≤
      (getP (computeDensities
        { soloSim with grid := soloSim.grid.Insert soloSim.particles }).particles 0).density :=
  ⟨by norm_num [soloSim],
    (claim10_no_div_by_zero soloSim).2.1 0 (by norm_num [soloSim])⟩

end SPH
